import Mathlib

/-!
Shallow embedding of cryptofeed's feed lifecycle supervisor
(src/cryptofeed/feedhandler.py) and of its NBBO aggregation protocol,
together with theorems settling the specification claims about them.

The embedding models:
  * the `FeedHandler` class: its `feeds` list, `add_feed`, `add_feed_running`,
    `add_nbbo`, `run`, `stop` and `close`;
  * the asyncio primitives those methods use (`gather` with and without
    `return_exceptions`), as an abstract single-threaded scheduler whose
    observable behaviour is an event trace;
  * the NBBO aggregator (cryptofeed/nbbo.py, not under src/), modelled from
    the spec.

Stateful methods are embedded as pure functions from the handler state (plus
behaviour parameters describing how the environment reacts: which feed
shutdowns fail, which tasks are pending on the loop) to an event trace, an
optional propagated Python exception, and the successor state.
-/

namespace Cryptofeed

/-- Python-level exceptions that the modelled code can raise or observe. -/
inductive PyErr where
  /-- ValueError with a message (raised by add_feed and run). -/
  | valueError : String → PyErr
  /-- TypeError, e.g. from calling a function with too many positional arguments. -/
  | typeError : String → PyErr
  /-- SystemExit, raised by the signal handlers installed on the loop. -/
  | systemExit : PyErr
  /-- Any other exception, tagged with a diagnostic string. -/
  | exc : String → PyErr
deriving DecidableEq, Repr

/-- The L2_BOOK channel constant from cryptofeed.defines. -/
def L2_BOOK : String := "l2_book"

/-- An NBBO aggregator instance as built by add_nbbo: it is bound to the user
callback (identified opaquely by a number) and to the symbol list. -/
structure NBBOAgg where
  callback : Nat
  symbols : List String
deriving DecidableEq, Repr

/-- A callback value wired into a feed's callbacks mapping. -/
inductive Callback where
  /-- An opaque user-supplied callback. -/
  | user : Nat → Callback
  /-- The ingestion entrypoint of an NBBO aggregator. -/
  | nbbo : NBBOAgg → Callback
deriving DecidableEq, Repr

/-- Keyword arguments of a Python call: association list from keyword name to
an (opaque, here string-valued) argument. -/
abbrev Kwargs := List (String × String)

/-- A Feed object owned by the handler. Exchange classes live outside src/, so
a feed is represented by how it was constructed. -/
inductive Feed where
  /-- Feed built by the registry lookup branch of add_feed:
  `_EXCHANGES[feed](config=self.config, **kwargs)`. -/
  | exchange (name : String) (kwargs : Kwargs)
  /-- Feed instance built by calling a feed class directly with explicit
  channels, symbols and callbacks, as add_nbbo does; `ctorId` identifies the
  feed class. -/
  | inst (ctorId : Nat) (channels : List String) (symbols : List String)
      (callbacks : List (String × Callback))
deriving DecidableEq, Repr

/-- The argument accepted by add_feed: either a venue-name string or a
pre-built Feed object (the `isinstance(feed, str)` test). -/
inductive FeedArg where
  | name : String → FeedArg
  | feedObj : Feed → FeedArg
deriving DecidableEq, Repr

/-- Modelled from the spec: the keys of the module-level `_EXCHANGES` registry.
The key values are constants imported from cryptofeed.defines, which is not
under src/; the registry itself is the 33-entry mapping literal in
feedhandler.py, and only key membership is observable to the supervisor. -/
def _EXCHANGES : List String :=
  ["BINANCE", "BINANCE_US", "BINANCE_FUTURES", "BINANCE_DELIVERY", "BITCOINCOM",
   "BITFINEX", "BITFLYER", "BITMAX", "BITMEX", "BITSTAMP", "BITTREX",
   "BLOCKCHAIN", "BYBIT", "COINBASE", "COINGECKO", "DERIBIT", "EXX", "FTX",
   "FTX_US", "GEMINI", "HITBTC", "HUOBI_DM", "HUOBI_SWAP", "HUOBI",
   "KRAKEN_FUTURES", "KRAKEN", "OKCOIN", "OKEX", "POLONIEX", "UPBIT", "GATEIO",
   "PROBIT", "WHALE_ALERT"]

/-- The FeedHandler state: the list of registered feeds (registration order)
and the `retries` attribute that stop() assigns (the TerminationState flag;
absent until stop() runs). -/
structure FeedHandler where
  feeds : List Feed
  retries : Option Nat
deriving DecidableEq, Repr

/-- A fresh FeedHandler, as built by FeedHandler.__init__: no feeds, retries
attribute not yet set. -/
def FeedHandler.init : FeedHandler := { feeds := [], retries := none }

/-- FeedHandler.add_feed: a string argument is looked up in _EXCHANGES and a
feed is constructed from the registry entry with the call's kwargs; an unknown
name raises ValueError; a non-string argument is appended as-is. -/
def FeedHandler.add_feed (fh : FeedHandler) (feed : FeedArg) (kwargs : Kwargs) :
    Except PyErr FeedHandler :=
  match feed with
  | .name s =>
      if s ∈ _EXCHANGES then
        .ok { fh with feeds := fh.feeds ++ [Feed.exchange s kwargs] }
      else
        .error (.valueError "Invalid feed specified")
  | .feedObj f => .ok { fh with feeds := fh.feeds ++ [f] }

/-- How the scheduler drive in run() terminates: the signal handlers raise
SystemExit, or an unhandled exception escapes loop.run_forever(). -/
inductive Termination where
  | systemExit
  | unhandled (e : PyErr)
deriving DecidableEq, Repr

/-- Observable scheduler-level events emitted by the lifecycle methods, in
program order. The single-threaded asyncio loop makes this order total. -/
inductive Event where
  /-- LOG.critical in run() when no feed is registered. -/
  | logCritical
  /-- setup_signal_handlers(loop): installing the termination-signal traps. -/
  | installSignalHandlers
  /-- feed.start(loop) for one registered feed. -/
  | startFeed (f : Feed)
  /-- loop.set_exception_handler(exception_handler) in run(). -/
  | setExceptionHandler
  /-- loop.run_forever(): driving the scheduler until termination. -/
  | runLoopForever
  /-- LOG.info on SystemExit / LOG.exception on any other exception caught
  around loop.run_forever() in run(). -/
  | logShutdownReason (t : Termination)
  /-- The assignment self.retries = 0 in stop() (the TerminationState flag). -/
  | setRetries (n : Nat)
  /-- loop.create_task(feed.shutdown()) for one registered feed. -/
  | createShutdownTask (f : Feed)
  /-- run_until_complete of the gather over the n shutdown tasks in stop(). -/
  | gatherShutdown (n : Nat)
  /-- loop.stop() at the start of close(). -/
  | loopStop
  /-- loop.run_forever() in close(), run one last time after loop.stop(). -/
  | drainLoop
  /-- task.cancel() for one pending task (identified by a number) in close(). -/
  | cancelTask (t : Nat)
  /-- run_until_complete of the gather (return_exceptions=True) over the n
  cancelled tasks in close(). -/
  | gatherCancelled (n : Nat)
  /-- loop.shutdown_asyncgens(): finalizing outstanding async generators. -/
  | shutdownAsyncgens
  /-- loop.close(): releasing the scheduler. -/
  | closeLoop
deriving DecidableEq, Repr

/-- Result of one method call: the emitted event trace, the exception that
propagated out of the call (none if it returned normally), and the successor
handler state. -/
structure CallResult where
  trace : List Event
  err : Option PyErr
  state : FeedHandler
deriving DecidableEq, Repr

/-- asyncio.gather over tasks whose eventual outcomes are `results` (none =
the task completed normally, some e = it raised e), as awaited through
run_until_complete. With return_exceptions=True every outcome is collected
into the result list and nothing is raised; with the default
return_exceptions=False the first exception is propagated to the awaiter
instead of being collected. In this single-threaded model tasks complete in
creation order, so the propagated exception is the first one in list order. -/
def gatherErr (results : List (Option PyErr)) (return_exceptions : Bool) :
    Option PyErr :=
  if return_exceptions then none
  else (results.filterMap id).head?

/-- FeedHandler.stop: assigns self.retries = 0, creates one shutdown task per
registered feed (in registration order), then runs the loop until the gather
over those tasks completes. `β` gives each feed's shutdown outcome. The gather
is the default fail-fast one, so the first shutdown failure propagates out of
stop(). -/
def FeedHandler.stop (fh : FeedHandler) (β : Feed → Option PyErr) : CallResult :=
  { trace := [Event.setRetries 0]
      ++ fh.feeds.map Event.createShutdownTask
      ++ [Event.gatherShutdown fh.feeds.length],
    err := gatherErr (fh.feeds.map β) false,
    state := { fh with retries := some 0 } }

/-- FeedHandler.close: stops the loop, runs it one last time, cancels every
task still pending (the `pending` list, with `γ` giving each cancellation's
outcome), awaits the gather over them with return_exceptions=True (so
cancellation faults are collected, never raised), then shuts down async
generators and closes the loop. -/
def FeedHandler.close (fh : FeedHandler) (pending : List Nat)
    (γ : Nat → Option PyErr) : CallResult :=
  { trace := [Event.loopStop, Event.drainLoop]
      ++ pending.map Event.cancelTask
      ++ [Event.gatherCancelled pending.length, Event.shutdownAsyncgens,
          Event.closeLoop],
    err := gatherErr (pending.map γ) true,
    state := fh }

/-- FeedHandler.run: raises ValueError (logged critical) when no feed is
registered; otherwise installs the signal handlers when requested, starts
every feed on the loop, and returns right away when start_loop is false.
When start_loop is true it installs the exception handler when given, drives
the loop until `term` ends it (both SystemExit and any other exception are
caught), and in the finally block calls stop() and then close(). Python
finally semantics: when stop() raises, close() is never entered and stop()'s
exception propagates out of run(). `β` gives each feed's shutdown outcome and
`pending`/`γ` describe the tasks close() finds pending. -/
def FeedHandler.run (fh : FeedHandler) (start_loop : Bool)
    (install_signal_handlers : Bool) (exception_handler : Bool)
    (term : Termination) (β : Feed → Option PyErr) (pending : List Nat)
    (γ : Nat → Option PyErr) : CallResult :=
  if fh.feeds.length = 0 then
    { trace := [Event.logCritical],
      err := some (.valueError "FH: No feed specified"),
      state := fh }
  else
    let pre := (if install_signal_handlers then [Event.installSignalHandlers] else [])
        ++ fh.feeds.map Event.startFeed
    if start_loop = false then
      { trace := pre, err := none, state := fh }
    else
      let drive := (if exception_handler then [Event.setExceptionHandler] else [])
          ++ [Event.runLoopForever, Event.logShutdownReason term]
      let s := fh.stop β
      if s.err = none then
        let c := s.state.close pending γ
        { trace := pre ++ drive ++ s.trace ++ c.trace, err := c.err,
          state := c.state }
      else
        { trace := pre ++ drive ++ s.trace, err := s.err, state := s.state }

/-- A Python call to add_feed through its def-site signature
`def add_feed(self, feed, **kwargs)`: it accepts exactly one positional
argument after self, so any further positional argument makes the call itself
raise TypeError before the body runs. -/
def FeedHandler.add_feed_positional (fh : FeedHandler) (posArgs : List FeedArg)
    (kwargs : Kwargs) : Except PyErr FeedHandler :=
  match posArgs with
  | [f] => fh.add_feed f kwargs
  | _ => .error (.typeError "add_feed takes 2 positional arguments")

/-- FeedHandler.add_feed_running: executes `self.add_feed(feed, *kwargs)` —
the kwargs mapping is unpacked POSITIONALLY, so its keys are passed as extra
positional arguments to add_feed — then starts the last registered feed on
the loop. Returns the feed that was started, when the call survives to that
point. -/
def FeedHandler.add_feed_running (fh : FeedHandler) (feed : FeedArg)
    (kwargs : Kwargs) : Except PyErr (FeedHandler × Option Feed) :=
  match fh.add_feed_positional (feed :: kwargs.map (fun kv => FeedArg.name kv.1)) [] with
  | .error e => .error e
  | .ok fh' => .ok (fh', fh'.feeds.getLast?)

/-- add_feed applied to a pre-built Feed object, as add_nbbo does; this branch
of add_feed cannot fail. -/
def FeedHandler.appendFeedObj (fh : FeedHandler) (f : Feed) : FeedHandler :=
  match fh.add_feed (.feedObj f) [] with
  | .ok fh' => fh'
  | .error _ => fh

/-- FeedHandler.add_nbbo: builds one NBBO aggregator `NBBO(callback, symbols)`
and, for each feed class in `feeds`, constructs a feed instance with
channels=[L2_BOOK], symbols=symbols, callbacks={L2_BOOK: cb} and registers it
through add_feed. -/
def FeedHandler.add_nbbo (fh : FeedHandler) (feeds : List Nat)
    (symbols : List String) (callback : Nat) : FeedHandler :=
  let cb := Callback.nbbo { callback := callback, symbols := symbols }
  feeds.foldl
    (fun acc c =>
      acc.appendFeedObj (Feed.inst c [L2_BOOK] symbols [(L2_BOOK, cb)]))
    fh

/-! Trace-ordering infrastructure. -/

/-- Every event satisfying `p` occurs strictly before every event satisfying
`q` in the trace `tr`. -/
def precedes (tr : List Event) (p q : Event → Bool) : Prop :=
  ∀ (i j : Nat) (ei ej : Event), tr[i]? = some ei → tr[j]? = some ej →
    p ei = true → q ej = true → i < j

/-- Event classifier: is this a createShutdownTask event? -/
def isCreateShutdown : Event → Bool
  | .createShutdownTask _ => true
  | _ => false

/-- Event classifier: is this the setRetries assignment (TerminationState)? -/
def isSetRetries : Event → Bool
  | .setRetries _ => true
  | _ => false

/-- Event classifier: does this event belong to stop() (Phase 1)? -/
def isStopEvent : Event → Bool
  | .setRetries _ => true
  | .createShutdownTask _ => true
  | .gatherShutdown _ => true
  | _ => false

/-- Event classifier: does this event belong to close() (Phase 2)? -/
def isCloseEvent : Event → Bool
  | .loopStop => true
  | .drainLoop => true
  | .cancelTask _ => true
  | .gatherCancelled _ => true
  | .shutdownAsyncgens => true
  | .closeLoop => true
  | _ => false

/-- Event classifier: is this a task cancellation? -/
def isCancelTask : Event → Bool
  | .cancelTask _ => true
  | _ => false

/-- Event classifier: is this the await of the cancellation gather? -/
def isGatherCancelled : Event → Bool
  | .gatherCancelled _ => true
  | _ => false

/-- Event classifier: is this the async-generator finalization? -/
def isShutdownAsyncgens : Event → Bool
  | .shutdownAsyncgens => true
  | _ => false

/-- Event classifier: is this the loop release? -/
def isCloseLoop : Event → Bool
  | .closeLoop => true
  | _ => false

/-- When the `p`-events of a trace all lie in its first segment and the
`q`-events all lie in its second segment, every `p`-event precedes every
`q`-event. -/
theorem precedes_append (xs ys : List Event) (p q : Event → Bool)
    (hp : ∀ e ∈ ys, p e = false) (hq : ∀ e ∈ xs, q e = false) :
    precedes (xs ++ ys) p q := by
  intro i j ei ej hi hj hpi hqj
  have hi' : i < xs.length := by
    by_contra h
    push_neg at h
    rw [List.getElem?_append_right h] at hi
    have hmem : ei ∈ ys := List.getElem?_mem hi
    rw [hp _ hmem] at hpi
    exact Bool.false_ne_true hpi
  have hj' : xs.length ≤ j := by
    by_contra h
    push_neg at h
    rw [List.getElem?_append_left h] at hj
    have hmem : ej ∈ xs := List.getElem?_mem hj
    rw [hq _ hmem] at hqj
    exact Bool.false_ne_true hqj
  omega

/-! NBBO aggregation model. -/

/-- Modelled from the spec: cryptofeed/nbbo.py is not under src/. A
PerSourceQuote: one entry per (symbol, source) pair, replaced in place by a
later update for the same pair. -/
structure PSQ where
  symbol : String
  source : String
  bidPrice : ℚ
  bidSize : ℚ
  askPrice : ℚ
  askSize : ℚ
deriving DecidableEq, Repr

/-- Modelled from the spec: replaces the PerSourceQuote for (q.symbol,
q.source) in place, keeping registration order; a new (symbol, source) pair is
appended (registered last). -/
def replaceQuote (qs : List PSQ) (q : PSQ) : List PSQ :=
  match qs with
  | [] => [q]
  | x :: xs =>
      if x.symbol = q.symbol ∧ x.source = q.source then q :: xs
      else x :: replaceQuote xs q

/-- Modelled from the spec: does quote `q` beat the incumbent `b` for the
aggregate bid? Yes when its bid price is strictly greater, or equal with a
strictly larger bid size; on a full tie the incumbent (earlier-registered)
source wins. -/
def improvesBid (q b : PSQ) : Bool :=
  decide (b.bidPrice < q.bidPrice) ||
    (decide (q.bidPrice = b.bidPrice) && decide (b.bidSize < q.bidSize))

/-- Modelled from the spec: does quote `q` beat the incumbent `b` for the
aggregate ask? Yes when its ask price is strictly smaller, or equal with a
strictly smaller ask size; on a full tie the earlier-registered source wins. -/
def improvesAsk (q b : PSQ) : Bool :=
  decide (q.askPrice < b.askPrice) ||
    (decide (q.askPrice = b.askPrice) && decide (q.askSize < b.askSize))

/-- Left fold selecting the best quote under the strict improvement test
`improves`: the incumbent is replaced only by a strictly better quote, so the
earliest-registered quote wins all remaining ties. -/
def selGo (improves : PSQ → PSQ → Bool) : Option PSQ → List PSQ → Option PSQ
  | acc, [] => acc
  | none, q :: qs => selGo improves (some q) qs
  | some b, q :: qs =>
      selGo improves (some (if improves q b then q else b)) qs

/-- The selected best quote of a list (none only for the empty list). -/
def selectQuote (improves : PSQ → PSQ → Bool) (qs : List PSQ) : Option PSQ :=
  selGo improves none qs

/-- The aggregate NBBO quote for a symbol: the winning per-source bid quote
and the winning per-source ask quote (each carrying price, size and source). -/
structure AggQuote where
  symbol : String
  bid : PSQ
  ask : PSQ
deriving DecidableEq, Repr

/-- Lookup of the last emitted aggregate for a symbol. -/
def lookupAgg (m : List (String × AggQuote)) (sym : String) : Option AggQuote :=
  match m with
  | [] => none
  | (s, v) :: rest => if s = sym then some v else lookupAgg rest sym

/-- Update of the last-emitted map for a symbol. -/
def setAgg (m : List (String × AggQuote)) (sym : String) (a : AggQuote) :
    List (String × AggQuote) :=
  match m with
  | [] => [(sym, a)]
  | (s, v) :: rest =>
      if s = sym then (sym, a) :: rest else (s, v) :: setAgg rest sym a

/-- NBBO aggregator state: the per-source quotes in registration order and the
last emitted aggregate per symbol. -/
structure NBBOState where
  quotes : List PSQ
  lastEmitted : List (String × AggQuote)
deriving DecidableEq, Repr

/-- The empty aggregator state, as built by NBBO(callback, symbols). -/
def NBBOState.init : NBBOState := { quotes := [], lastEmitted := [] }

/-- Modelled from the spec: NBBO ingestion. Replaces the PerSourceQuote for
(symbol, source), recomputes the aggregate for that symbol from all current
entries for it (maximum bid price, minimum ask price, ties by size then by
earliest registration), and emits the aggregate through the callback only when
it differs from the last emitted aggregate for that symbol. Returns the new
state and the emitted aggregate, if any. -/
def NBBOState.ingest (st : NBBOState) (q : PSQ) : NBBOState × Option AggQuote :=
  let qs := replaceQuote st.quotes q
  let symQs := qs.filter (fun x => x.symbol = q.symbol)
  match selectQuote improvesBid symQs, selectQuote improvesAsk symQs with
  | some b, some a =>
      let agg : AggQuote := { symbol := q.symbol, bid := b, ask := a }
      if lookupAgg st.lastEmitted q.symbol = some agg then
        ({ quotes := qs, lastEmitted := st.lastEmitted }, none)
      else
        ({ quotes := qs, lastEmitted := setAgg st.lastEmitted q.symbol agg },
         some agg)
  | _, _ => ({ quotes := qs, lastEmitted := st.lastEmitted }, none)

/-- The best-quote characterization: `b` occurs in `qs`, strictly beats every
quote registered before it, and is not beaten by any quote registered after
it. This captures max-price selection with size and registration-order tie
breaking. -/
def IsBestOf (improves : PSQ → PSQ → Bool) (qs : List PSQ) (b : PSQ) : Prop :=
  ∃ pre post, qs = pre ++ b :: post ∧
    (∀ x ∈ pre, improves b x = true) ∧
    (∀ x ∈ post, improves x b = false)

/-- The selection fold never drops a some accumulator. -/
theorem selGo_some_isSome (improves : PSQ → PSQ → Bool) :
    ∀ (qs : List PSQ) (i : PSQ), ∃ b, selGo improves (some i) qs = some b := by
  intro qs
  induction qs with
  | nil => intro i; exact ⟨i, rfl⟩
  | cons q rest ih =>
      intro i
      simp only [selGo]
      exact ih _

/-- Characterization of the selection fold started from incumbent `i`: either
the incumbent survives and nothing in the list beats it, or the result beats
the incumbent, beats everything before its position, and is unbeaten by
everything after it. Requires the improvement test to be transitive and to be
negatively transitive against the incumbent chain. -/
theorem selGo_spec (improves : PSQ → PSQ → Bool)
    (Htrans : ∀ a b c : PSQ, improves b a = true → improves c b = true →
      improves c a = true)
    (Hneg : ∀ i q b : PSQ, improves q i = false → improves b i = true →
      improves b q = true) :
    ∀ (qs : List PSQ) (i b : PSQ), selGo improves (some i) qs = some b →
      (b = i ∧ ∀ x ∈ qs, improves x b = false) ∨
      (improves b i = true ∧ ∃ pre post, qs = pre ++ b :: post ∧
        (∀ x ∈ pre, improves b x = true) ∧
        (∀ x ∈ post, improves x b = false)) := by
  intro qs
  induction qs with
  | nil =>
      intro i b h
      simp only [selGo, Option.some.injEq] at h
      exact Or.inl ⟨h.symm, by simp⟩
  | cons q rest ih =>
      intro i b h
      simp only [selGo] at h
      by_cases hq : improves q i = true
      · rw [if_pos hq] at h
        rcases ih q b h with ⟨rfl, hall⟩ | ⟨hbq, pre, post, hrest, hpre, hpost⟩
        · exact Or.inr ⟨hq, [], rest, by simp, by simp, hall⟩
        · refine Or.inr ⟨Htrans i q b hq hbq, q :: pre, post, by simp [hrest], ?_, hpost⟩
          intro x hx
          rcases List.mem_cons.mp hx with rfl | hx
          · exact hbq
          · exact hpre x hx
      · have hq' : improves q i = false := Bool.eq_false_iff.mpr hq
        rw [if_neg hq] at h
        rcases ih i b h with ⟨rfl, hall⟩ | ⟨hbi, pre, post, hrest, hpre, hpost⟩
        · refine Or.inl ⟨rfl, ?_⟩
          intro x hx
          rcases List.mem_cons.mp hx with rfl | hx
          · exact hq'
          · exact hall x hx
        · refine Or.inr ⟨hbi, q :: pre, post, by simp [hrest], ?_, hpost⟩
          intro x hx
          rcases List.mem_cons.mp hx with rfl | hx
          · exact Hneg i x b hq' hbi
          · exact hpre x hx

/-- On a nonempty list, the selection fold returns a quote satisfying the
best-quote characterization. -/
theorem selectQuote_isBest (improves : PSQ → PSQ → Bool)
    (Htrans : ∀ a b c : PSQ, improves b a = true → improves c b = true →
      improves c a = true)
    (Hneg : ∀ i q b : PSQ, improves q i = false → improves b i = true →
      improves b q = true)
    (q0 : PSQ) (rest : List PSQ) :
    ∃ b, selectQuote improves (q0 :: rest) = some b ∧
      IsBestOf improves (q0 :: rest) b := by
  obtain ⟨b, hb⟩ := selGo_some_isSome improves rest q0
  refine ⟨b, by simpa [selectQuote, selGo] using hb, ?_⟩
  rcases selGo_spec improves Htrans Hneg rest q0 b hb with
    ⟨rfl, hall⟩ | ⟨hbq, pre, post, hrest, hpre, hpost⟩
  · exact ⟨[], rest, rfl, by simp, hall⟩
  · refine ⟨q0 :: pre, post, by simp [hrest], ?_, hpost⟩
    intro x hx
    rcases List.mem_cons.mp hx with rfl | hx
    · exact hbq
    · exact hpre x hx

/-- Unfolding of the bid improvement test to an ordering proposition. -/
theorem improvesBid_iff (q b : PSQ) : improvesBid q b = true ↔
    (b.bidPrice < q.bidPrice ∨
      (q.bidPrice = b.bidPrice ∧ b.bidSize < q.bidSize)) := by
  simp [improvesBid]

/-- Unfolding of the ask improvement test to an ordering proposition. -/
theorem improvesAsk_iff (q b : PSQ) : improvesAsk q b = true ↔
    (q.askPrice < b.askPrice ∨
      (q.askPrice = b.askPrice ∧ q.askSize < b.askSize)) := by
  simp [improvesAsk]

/-- Transitivity of the bid improvement test. -/
theorem improvesBid_trans (a b c : PSQ) (h1 : improvesBid b a = true)
    (h2 : improvesBid c b = true) : improvesBid c a = true := by
  rw [improvesBid_iff] at h1 h2 ⊢
  rcases h1 with h1 | ⟨h1e, h1s⟩ <;> rcases h2 with h2 | ⟨h2e, h2s⟩ <;>
    first
    | (left; linarith)
    | (right; exact ⟨by linarith, by linarith⟩)

/-- A quote that failed to beat the incumbent is beaten by any later quote
that does beat the incumbent (bid version). -/
theorem improvesBid_neg_trans (i q b : PSQ) (h1 : improvesBid q i = false)
    (h2 : improvesBid b i = true) : improvesBid b q = true := by
  have h1' : ¬ (i.bidPrice < q.bidPrice ∨
      (q.bidPrice = i.bidPrice ∧ i.bidSize < q.bidSize)) := by
    rw [← improvesBid_iff, h1]; simp
  push_neg at h1'
  obtain ⟨hple, hsle⟩ := h1'
  rw [improvesBid_iff] at h2 ⊢
  rcases h2 with h2 | ⟨h2e, h2s⟩
  · left; linarith
  · rcases lt_or_eq_of_le hple with hlt | heq
    · left; linarith
    · have hs := hsle heq
      right
      exact ⟨by linarith, by linarith⟩

/-- Transitivity of the ask improvement test. -/
theorem improvesAsk_trans (a b c : PSQ) (h1 : improvesAsk b a = true)
    (h2 : improvesAsk c b = true) : improvesAsk c a = true := by
  rw [improvesAsk_iff] at h1 h2 ⊢
  rcases h1 with h1 | ⟨h1e, h1s⟩ <;> rcases h2 with h2 | ⟨h2e, h2s⟩ <;>
    first
    | (left; linarith)
    | (right; exact ⟨by linarith, by linarith⟩)

/-- A quote that failed to beat the incumbent is beaten by any later quote
that does beat the incumbent (ask version). -/
theorem improvesAsk_neg_trans (i q b : PSQ) (h1 : improvesAsk q i = false)
    (h2 : improvesAsk b i = true) : improvesAsk b q = true := by
  have h1' : ¬ (q.askPrice < i.askPrice ∨
      (q.askPrice = i.askPrice ∧ q.askSize < i.askSize)) := by
    rw [← improvesAsk_iff, h1]; simp
  push_neg at h1'
  obtain ⟨hple, hsle⟩ := h1'
  rw [improvesAsk_iff] at h2 ⊢
  rcases h2 with h2 | ⟨h2e, h2s⟩
  · left; linarith
  · rcases lt_or_eq_of_le hple with hlt | heq
    · left; linarith
    · have hs := hsle heq.symm
      right
      exact ⟨by linarith, by linarith⟩

/-- The best bid quote has the maximum bid price of its list. -/
theorem bestOf_bid_le (qs : List PSQ) (b : PSQ)
    (h : IsBestOf improvesBid qs b) : ∀ x ∈ qs, x.bidPrice ≤ b.bidPrice := by
  obtain ⟨pre, post, rfl, hpre, hpost⟩ := h
  intro x hx
  rcases List.mem_append.mp hx with hx | hx
  · have := (improvesBid_iff b x).mp (hpre x hx)
    rcases this with h | ⟨he, _⟩
    · exact le_of_lt h
    · exact le_of_eq he.symm
  · rcases List.mem_cons.mp hx with rfl | hx
    · exact le_refl _
    · have hq := hpost x hx
      have : ¬ (b.bidPrice < x.bidPrice ∨
          (x.bidPrice = b.bidPrice ∧ b.bidSize < x.bidSize)) := by
        rw [← improvesBid_iff, hq]; simp
      push_neg at this
      exact this.1

/-- The best ask quote has the minimum ask price of its list. -/
theorem bestOf_ask_ge (qs : List PSQ) (a : PSQ)
    (h : IsBestOf improvesAsk qs a) : ∀ x ∈ qs, a.askPrice ≤ x.askPrice := by
  obtain ⟨pre, post, rfl, hpre, hpost⟩ := h
  intro x hx
  rcases List.mem_append.mp hx with hx | hx
  · have := (improvesAsk_iff a x).mp (hpre x hx)
    rcases this with h | ⟨he, _⟩
    · exact le_of_lt h
    · exact le_of_eq he
  · rcases List.mem_cons.mp hx with rfl | hx
    · exact le_refl _
    · have hq := hpost x hx
      have : ¬ (x.askPrice < a.askPrice ∨
          (x.askPrice = a.askPrice ∧ x.askSize < a.askSize)) := by
        rw [← improvesAsk_iff, hq]; simp
      push_neg at this
      exact this.1

/-! Sample inputs shared by witnesses and counterexamples. -/

/-- A sample registered feed. -/
def sampleFeed : Feed := Feed.exchange "BINANCE" []

/-- A handler with one registered feed. -/
def sampleFh : FeedHandler := { feeds := [sampleFeed], retries := none }

/-- Shutdown behaviour where every feed's shutdown task succeeds. -/
def noErr : Feed → Option PyErr := fun _ => none

/-- Shutdown behaviour where every feed's shutdown task raises. -/
def failErr : Feed → Option PyErr := fun _ => some (.exc "boom")

/-- Cancellation behaviour where every cancellation resolves cleanly. -/
def noCancelErr : Nat → Option PyErr := fun _ => none

/-! Claim theorems. -/

/-- Claim C3 (confirmed): run() on a supervisor with an empty registered-feed
set logs at critical severity and fails with the ValueError that plays the
spec's ConfigurationError role, before anything starts: the trace contains
only the critical log — no signal-handler installation, no feed start, no
scheduler drive — and the handler state is unchanged. -/
theorem C3_run_no_feeds (fh : FeedHandler) (sl ish eh : Bool)
    (term : Termination) (β : Feed → Option PyErr) (pending : List Nat)
    (γ : Nat → Option PyErr) (h : fh.feeds = []) :
    (fh.run sl ish eh term β pending γ).trace = [Event.logCritical] ∧
    (fh.run sl ish eh term β pending γ).err =
      some (.valueError "FH: No feed specified") ∧
    (fh.run sl ish eh term β pending γ).state = fh ∧
    (∀ f, Event.startFeed f ∉ (fh.run sl ish eh term β pending γ).trace) ∧
    Event.installSignalHandlers ∉ (fh.run sl ish eh term β pending γ).trace ∧
    Event.runLoopForever ∉ (fh.run sl ish eh term β pending γ).trace := by
  simp [FeedHandler.run, h]

/-- Claim C3 witness: the theorem applied to a fresh handler. -/
theorem C3_run_no_feeds_witness :
    (FeedHandler.init.run true true false Termination.systemExit noErr []
      noCancelErr).err = some (.valueError "FH: No feed specified") :=
  (C3_run_no_feeds FeedHandler.init true true false Termination.systemExit
    noErr [] noCancelErr rfl).2.1

/-- Claim C4 (confirmed): add_feed with a venue-name string not in the
registry fails with ValueError (the spec's InvalidFeedError role) and produces
no successor state, so the registered set is unchanged; with a known name, or
with a pre-built Feed object, it succeeds appending exactly one feed to the
owned set and returning nothing else. -/
theorem C4_add_feed_register (fh : FeedHandler) (kwargs : Kwargs) :
    (∀ s : String, s ∉ _EXCHANGES →
      fh.add_feed (.name s) kwargs =
        .error (.valueError "Invalid feed specified")) ∧
    (∀ s : String, s ∈ _EXCHANGES →
      fh.add_feed (.name s) kwargs =
        .ok { fh with feeds := fh.feeds ++ [Feed.exchange s kwargs] }) ∧
    (∀ f : Feed, fh.add_feed (.feedObj f) kwargs =
      .ok { fh with feeds := fh.feeds ++ [f] }) := by
  refine ⟨?_, ?_, ?_⟩
  · intro s hs; simp [FeedHandler.add_feed, hs]
  · intro s hs; simp [FeedHandler.add_feed, hs]
  · intro f; simp [FeedHandler.add_feed]

/-- Claim C4 witness: an unknown venue name is rejected and a known one is
appended, at concrete inputs. -/
theorem C4_add_feed_register_witness :
    FeedHandler.init.add_feed (.name "NOPE") [] =
      .error (.valueError "Invalid feed specified") ∧
    FeedHandler.init.add_feed (.name "BINANCE") [] =
      .ok { feeds := [Feed.exchange "BINANCE" []], retries := none } := by
  constructor
  · exact (C4_add_feed_register FeedHandler.init []).1 "NOPE" (by decide)
  · exact (C4_add_feed_register FeedHandler.init []).2.1 "BINANCE" (by decide)

/-- Claim C6 (confirmed): run() with start_loop false on a handler with at
least one registered feed issues one start per registered feed (after the
optional signal-handler installation) and returns immediately: no exception
handler is installed, the scheduler is not driven, and neither stop() nor
close() events appear; the handler state is unchanged and nothing is raised. -/
theorem C6_run_embedding (fh : FeedHandler) (ish eh : Bool)
    (term : Termination) (β : Feed → Option PyErr) (pending : List Nat)
    (γ : Nat → Option PyErr) (h : fh.feeds ≠ []) :
    (fh.run false ish eh term β pending γ).trace =
      (if ish then [Event.installSignalHandlers] else [])
        ++ fh.feeds.map Event.startFeed ∧
    (fh.run false ish eh term β pending γ).err = none ∧
    (fh.run false ish eh term β pending γ).state = fh ∧
    Event.setExceptionHandler ∉ (fh.run false ish eh term β pending γ).trace ∧
    Event.runLoopForever ∉ (fh.run false ish eh term β pending γ).trace ∧
    (∀ n, Event.setRetries n ∉ (fh.run false ish eh term β pending γ).trace) ∧
    (∀ f, Event.createShutdownTask f ∉
      (fh.run false ish eh term β pending γ).trace) ∧
    Event.loopStop ∉ (fh.run false ish eh term β pending γ).trace ∧
    Event.closeLoop ∉ (fh.run false ish eh term β pending γ).trace := by
  have h0 : ¬ fh.feeds.length = 0 := by
    simpa [List.length_eq_zero] using h
  refine ⟨?_, ?_, ?_, ?_, ?_, ?_, ?_, ?_, ?_⟩ <;>
    cases ish <;> simp [FeedHandler.run, h0]

/-- Claim C6 witness: the theorem applied to a one-feed handler. -/
theorem C6_run_embedding_witness :
    (sampleFh.run false true false Termination.systemExit noErr []
      noCancelErr).trace =
      [Event.installSignalHandlers, Event.startFeed sampleFeed] := by
  have h := (C6_run_embedding sampleFh true false Termination.systemExit noErr
    [] noCancelErr (by simp [sampleFh])).1
  simpa [sampleFh] using h

/-- Claim C1 counterexample: with one registered feed whose shutdown task
fails, the failure is re-raised out of stop() — stop() does not return
normally — contradicting the claim that a failing shutdown task is collected
and logged and never re-raised out of stop(). -/
theorem C1_stop_reraises :
    (sampleFh.stop failErr).err = some (.exc "boom") ∧
    ¬ (sampleFh.stop failErr).err = none := by
  constructor <;>
    simp [sampleFh, sampleFeed, FeedHandler.stop, failErr, gatherErr]

/-- Claim C1 (corrected): stop() schedules exactly one shutdown task per
registered feed (in registration order) and awaits a single gather over all N
of them; but the gather is the fail-fast default, so stop() returns normally
iff every shutdown task succeeds, and otherwise the first failure is
re-raised out of stop() rather than collected and logged. -/
theorem C1_stop_tasks_amended (fh : FeedHandler) (β : Feed → Option PyErr) :
    (fh.stop β).trace.filter isCreateShutdown =
      fh.feeds.map Event.createShutdownTask ∧
    Event.gatherShutdown fh.feeds.length ∈ (fh.stop β).trace ∧
    (fh.stop β).err = ((fh.feeds.map β).filterMap id).head? ∧
    ((fh.stop β).err = none ↔ ∀ f ∈ fh.feeds, β f = none) := by
  refine ⟨?_, ?_, ?_, ?_⟩
  · simp only [FeedHandler.stop, List.filter_append, List.filter_cons,
      List.filter_nil]
    have h1 : isCreateShutdown (Event.setRetries 0) = false := rfl
    have h2 : isCreateShutdown (Event.gatherShutdown fh.feeds.length) = false :=
      rfl
    rw [h1, h2]
    simp only [Bool.false_eq_true, if_false, List.nil_append, List.append_nil]
    rw [List.filter_eq_self.mpr]
    intro e he
    obtain ⟨f, _, rfl⟩ := List.mem_map.mp he
    rfl
  · simp [FeedHandler.stop]
  · simp [FeedHandler.stop, gatherErr]
  · have he : (fh.stop β).err = ((fh.feeds.map β).filterMap id).head? := by
      simp [FeedHandler.stop, gatherErr]
    rw [he, List.head?_eq_none_iff]
    simp [List.filterMap_eq_nil_iff]

/-- Claim C1 witness: the amended theorem applied at a concrete input where
every shutdown succeeds, evaluating stop() to a normal return. -/
theorem C1_stop_tasks_amended_witness : (sampleFh.stop noErr).err = none :=
  (C1_stop_tasks_amended sampleFh noErr).2.2.2.mpr (by decide)

/-- Claim C7 (confirmed): stop() performs the TerminationState assignment
(self.retries = 0) as its very first action, strictly before creating any
shutdown task, and the successor state carries retries = 0. That each Feed's
connection/retry loop reads this flag is modelled from the spec, the Feed
implementation not being under src/. -/
theorem C7_stop_sets_termination_first (fh : FeedHandler)
    (β : Feed → Option PyErr) :
    (fh.stop β).trace.head? = some (Event.setRetries 0) ∧
    precedes (fh.stop β).trace isSetRetries isCreateShutdown ∧
    (fh.stop β).state.retries = some 0 := by
  refine ⟨by simp [FeedHandler.stop], ?_, by simp [FeedHandler.stop]⟩
  have htr : (fh.stop β).trace = [Event.setRetries 0] ++
      (fh.feeds.map Event.createShutdownTask ++
        [Event.gatherShutdown fh.feeds.length]) := by
    simp [FeedHandler.stop]
  rw [htr]
  apply precedes_append
  · intro e he
    rcases List.mem_append.mp he with he | he
    · obtain ⟨f, _, rfl⟩ := List.mem_map.mp he
      rfl
    · rcases List.mem_singleton.mp he with rfl
      rfl
  · intro e he
    rcases List.mem_singleton.mp he with rfl
    rfl

/-- Claim C7 witness: the theorem applied at a concrete one-feed handler,
evaluating the first trace event. -/
theorem C7_stop_sets_termination_first_witness :
    (sampleFh.stop noErr).trace.head? = some (Event.setRetries 0) :=
  (C7_stop_sets_termination_first sampleFh noErr).1

/-- Claim C5 (confirmed): close() issues a cancellation for every task still
pending and awaits the gather over them with return_exceptions=True, so
cancellation faults are observed and discarded and close() always returns
normally; async-generator finalization occurs strictly after every
cancellation and after the cancellation gather has resolved, and the loop is
released only after finalization. -/
theorem C5_close_order (fh : FeedHandler) (pending : List Nat)
    (γ : Nat → Option PyErr) :
    (fh.close pending γ).err = none ∧
    (∀ t ∈ pending, Event.cancelTask t ∈ (fh.close pending γ).trace) ∧
    precedes (fh.close pending γ).trace isCancelTask isShutdownAsyncgens ∧
    precedes (fh.close pending γ).trace isGatherCancelled isShutdownAsyncgens ∧
    precedes (fh.close pending γ).trace isShutdownAsyncgens isCloseLoop := by
  refine ⟨by simp [FeedHandler.close, gatherErr], ?_, ?_, ?_, ?_⟩
  · intro t ht
    have h1 : Event.cancelTask t ∈ pending.map Event.cancelTask :=
      List.mem_map.mpr ⟨t, ht, rfl⟩
    have h2 : (fh.close pending γ).trace =
        [Event.loopStop, Event.drainLoop] ++ pending.map Event.cancelTask ++
          [Event.gatherCancelled pending.length, Event.shutdownAsyncgens,
            Event.closeLoop] := rfl
    rw [h2]
    exact List.mem_append.mpr (Or.inl (List.mem_append.mpr (Or.inr h1)))
  · have htr : (fh.close pending γ).trace =
        ([Event.loopStop, Event.drainLoop] ++ pending.map Event.cancelTask ++
          [Event.gatherCancelled pending.length]) ++
          [Event.shutdownAsyncgens, Event.closeLoop] := by
      simp [FeedHandler.close]
    rw [htr]
    apply precedes_append
    · intro e he
      rcases List.mem_cons.mp he with rfl | he
      · rfl
      · rcases List.mem_singleton.mp he with rfl
        rfl
    · intro e he
      rcases List.mem_append.mp he with he | he
      · rcases List.mem_append.mp he with he | he
        · rcases List.mem_cons.mp he with rfl | he
          · rfl
          · rcases List.mem_singleton.mp he with rfl
            rfl
        · obtain ⟨t, _, rfl⟩ := List.mem_map.mp he
          rfl
      · rcases List.mem_singleton.mp he with rfl
        rfl
  · have htr : (fh.close pending γ).trace =
        ([Event.loopStop, Event.drainLoop] ++ pending.map Event.cancelTask ++
          [Event.gatherCancelled pending.length]) ++
          [Event.shutdownAsyncgens, Event.closeLoop] := by
      simp [FeedHandler.close]
    rw [htr]
    apply precedes_append
    · intro e he
      rcases List.mem_cons.mp he with rfl | he
      · rfl
      · rcases List.mem_singleton.mp he with rfl
        rfl
    · intro e he
      rcases List.mem_append.mp he with he | he
      · rcases List.mem_append.mp he with he | he
        · rcases List.mem_cons.mp he with rfl | he
          · rfl
          · rcases List.mem_singleton.mp he with rfl
            rfl
        · obtain ⟨t, _, rfl⟩ := List.mem_map.mp he
          rfl
      · rcases List.mem_singleton.mp he with rfl
        rfl
  · have htr : (fh.close pending γ).trace =
        ([Event.loopStop, Event.drainLoop] ++ pending.map Event.cancelTask ++
          [Event.gatherCancelled pending.length, Event.shutdownAsyncgens]) ++
          [Event.closeLoop] := by
      simp [FeedHandler.close]
    rw [htr]
    apply precedes_append
    · intro e he
      rcases List.mem_singleton.mp he with rfl
      rfl
    · intro e he
      rcases List.mem_append.mp he with he | he
      · rcases List.mem_append.mp he with he | he
        · rcases List.mem_cons.mp he with rfl | he
          · rfl
          · rcases List.mem_singleton.mp he with rfl
            rfl
        · obtain ⟨t, _, rfl⟩ := List.mem_map.mp he
          rfl
      · rcases List.mem_cons.mp he with rfl | he
        · rfl
        · rcases List.mem_singleton.mp he with rfl
          rfl

/-- Claim C5 witness: the theorem applied at concrete inputs, evaluating one
pending task's cancellation into the trace. -/
theorem C5_close_order_witness :
    Event.cancelTask 7 ∈ (sampleFh.close [7] noCancelErr).trace :=
  (C5_close_order sampleFh [7] noCancelErr).2.1 7 (by decide)

/-- When the trace contains no event satisfying `q`, the ordering constraint
holds vacuously. -/
theorem precedes_of_no_second (tr : List Event) (p q : Event → Bool)
    (hq : ∀ e ∈ tr, q e = false) : precedes tr p q := by
  intro i j ei ej hi hj hpi hqj
  have := hq ej (List.getElem?_mem hj)
  rw [this] at hqj
  exact absurd hqj (by simp)

/-- No Phase-1 (stop) event appears in close()'s trace. -/
theorem no_stop_in_close (fh : FeedHandler) (pending : List Nat)
    (γ : Nat → Option PyErr) :
    ∀ e ∈ (fh.close pending γ).trace, isStopEvent e = false := by
  intro e he
  have h2 : (fh.close pending γ).trace =
      [Event.loopStop, Event.drainLoop] ++ pending.map Event.cancelTask ++
        [Event.gatherCancelled pending.length, Event.shutdownAsyncgens,
          Event.closeLoop] := rfl
  rw [h2] at he
  rcases List.mem_append.mp he with he | he
  · rcases List.mem_append.mp he with he | he
    · rcases List.mem_cons.mp he with rfl | he
      · rfl
      · rcases List.mem_singleton.mp he with rfl
        rfl
    · obtain ⟨t, _, rfl⟩ := List.mem_map.mp he
      rfl
  · rcases List.mem_cons.mp he with rfl | he
    · rfl
    · rcases List.mem_cons.mp he with rfl | he
      · rfl
      · rcases List.mem_singleton.mp he with rfl
        rfl

/-- Membership in a one-element conditional list forces the element. -/
theorem mem_ite_singleton {c : Bool} {a e : Event}
    (he : e ∈ (if c = true then [a] else [])) : e = a := by
  cases c
  · simp at he
  · simpa using he

/-- No Phase-2 (close) event appears in the part of run()'s trace that comes
before close(): the startup prefix, the scheduler drive, and stop()'s trace. -/
theorem no_close_before_close_phase (fh : FeedHandler) (ish eh : Bool)
    (term : Termination) (β : Feed → Option PyErr) :
    ∀ e ∈ ((if ish = true then [Event.installSignalHandlers] else []) ++
        fh.feeds.map Event.startFeed) ++
      ((if eh = true then [Event.setExceptionHandler] else []) ++
        [Event.runLoopForever, Event.logShutdownReason term]) ++
      (fh.stop β).trace, isCloseEvent e = false := by
  intro e he
  rcases List.mem_append.mp he with he | he
  · rcases List.mem_append.mp he with he | he
    · rcases List.mem_append.mp he with he | he
      · rcases mem_ite_singleton he with rfl
        rfl
      · obtain ⟨f, _, rfl⟩ := List.mem_map.mp he
        rfl
    · rcases List.mem_append.mp he with he | he
      · rcases mem_ite_singleton he with rfl
        rfl
      · rcases List.mem_cons.mp he with rfl | he
        · rfl
        · rcases List.mem_singleton.mp he with rfl
          rfl
  · have h2 : (fh.stop β).trace = [Event.setRetries 0] ++
        fh.feeds.map Event.createShutdownTask ++
        [Event.gatherShutdown fh.feeds.length] := rfl
    rw [h2] at he
    rcases List.mem_append.mp he with he | he
    · rcases List.mem_append.mp he with he | he
      · rcases List.mem_singleton.mp he with rfl
        rfl
      · obtain ⟨f, _, rfl⟩ := List.mem_map.mp he
        rfl
    · rcases List.mem_singleton.mp he with rfl
      rfl

/-- Claim C2 counterexample: with one registered feed whose shutdown task
fails, run() with start_loop true terminated by SystemExit executes stop() but
never begins close(): the shutdown failure propagates out of run(), and no
close event (not even loop.stop()) appears in the trace. This contradicts the
claim that run() always executes stop() and then close() before returning. -/
theorem C2_close_skipped :
    Event.setRetries 0 ∈
      (sampleFh.run true true false Termination.systemExit failErr []
        noCancelErr).trace ∧
    Event.loopStop ∉
      (sampleFh.run true true false Termination.systemExit failErr []
        noCancelErr).trace ∧
    Event.closeLoop ∉
      (sampleFh.run true true false Termination.systemExit failErr []
        noCancelErr).trace ∧
    (sampleFh.run true true false Termination.systemExit failErr []
      noCancelErr).err = some (.exc "boom") := by
  refine ⟨?_, ?_, ?_, ?_⟩ <;>
    simp [FeedHandler.run, FeedHandler.stop, sampleFh, sampleFeed, failErr,
      gatherErr]

/-- Claim C2 (corrected): on a handler with at least one registered feed,
run() with start_loop true always executes stop() after the scheduler drive
terminates (by SystemExit or by an unhandled fault alike); every stop event
strictly precedes every close event, so close() never begins before stop()
has completed; when every shutdown task succeeds, close() then runs to
completion and run() returns normally; but when a shutdown task fails, the
failure propagates out of run() and close() is never entered. -/
theorem C2_run_stop_then_close_amended (fh : FeedHandler) (ish eh : Bool)
    (term : Termination) (β : Feed → Option PyErr) (pending : List Nat)
    (γ : Nat → Option PyErr) (h : fh.feeds ≠ []) :
    Event.setRetries 0 ∈ (fh.run true ish eh term β pending γ).trace ∧
    Event.gatherShutdown fh.feeds.length ∈
      (fh.run true ish eh term β pending γ).trace ∧
    precedes (fh.run true ish eh term β pending γ).trace isStopEvent
      isCloseEvent ∧
    ((fh.stop β).err = none →
      ((fh.run true ish eh term β pending γ).err = none ∧
        Event.closeLoop ∈ (fh.run true ish eh term β pending γ).trace)) ∧
    (∀ e, (fh.stop β).err = some e →
      ((fh.run true ish eh term β pending γ).err = some e ∧
        Event.loopStop ∉ (fh.run true ish eh term β pending γ).trace ∧
        Event.closeLoop ∉ (fh.run true ish eh term β pending γ).trace)) := by
  have h0 : ¬ fh.feeds.length = 0 := by
    simpa [List.length_eq_zero] using h
  by_cases hs : (fh.stop β).err = none
  · have hrun : fh.run true ish eh term β pending γ =
        { trace := ((if ish = true then [Event.installSignalHandlers] else []) ++
              fh.feeds.map Event.startFeed) ++
            ((if eh = true then [Event.setExceptionHandler] else []) ++
              [Event.runLoopForever, Event.logShutdownReason term]) ++
            (fh.stop β).trace ++ ((fh.stop β).state.close pending γ).trace,
          err := ((fh.stop β).state.close pending γ).err,
          state := ((fh.stop β).state.close pending γ).state } := by
      simp [FeedHandler.run, h0, hs]
    refine ⟨?_, ?_, ?_, ?_, ?_⟩
    · rw [hrun]
      simp [FeedHandler.stop]
    · rw [hrun]
      simp [FeedHandler.stop]
    · rw [hrun]
      have hassoc : ((if ish = true then [Event.installSignalHandlers] else []) ++
            fh.feeds.map Event.startFeed) ++
          ((if eh = true then [Event.setExceptionHandler] else []) ++
            [Event.runLoopForever, Event.logShutdownReason term]) ++
          (fh.stop β).trace ++ ((fh.stop β).state.close pending γ).trace =
          (((if ish = true then [Event.installSignalHandlers] else []) ++
            fh.feeds.map Event.startFeed) ++
          ((if eh = true then [Event.setExceptionHandler] else []) ++
            [Event.runLoopForever, Event.logShutdownReason term]) ++
          (fh.stop β).trace) ++ ((fh.stop β).state.close pending γ).trace := by
        simp [List.append_assoc]
      rw [hassoc]
      exact precedes_append _ _ _ _ (no_stop_in_close _ _ _)
        (no_close_before_close_phase fh ish eh term β)
    · intro _
      rw [hrun]
      refine ⟨by simp [FeedHandler.close, gatherErr], ?_⟩
      have : Event.closeLoop ∈ ((fh.stop β).state.close pending γ).trace := by
        simp [FeedHandler.close]
      simp only [List.mem_append]
      exact Or.inr this
    · intro e he
      rw [hs] at he
      exact absurd he (by simp)
  · obtain ⟨e0, he0⟩ := Option.ne_none_iff_exists.mp hs
    have hrun : fh.run true ish eh term β pending γ =
        { trace := ((if ish = true then [Event.installSignalHandlers] else []) ++
              fh.feeds.map Event.startFeed) ++
            ((if eh = true then [Event.setExceptionHandler] else []) ++
              [Event.runLoopForever, Event.logShutdownReason term]) ++
            (fh.stop β).trace,
          err := (fh.stop β).err,
          state := (fh.stop β).state } := by
      simp [FeedHandler.run, h0, hs]
    refine ⟨?_, ?_, ?_, ?_, ?_⟩
    · rw [hrun]
      simp [FeedHandler.stop]
    · rw [hrun]
      simp [FeedHandler.stop]
    · rw [hrun]
      exact precedes_of_no_second _ _ _ (no_close_before_close_phase fh ish eh term β)
    · intro he
      exact absurd he hs
    · intro e he
      refine ⟨by rw [hrun]; exact he, ?_, ?_⟩
      · intro hmem
        rw [hrun] at hmem
        have := no_close_before_close_phase fh ish eh term β Event.loopStop hmem
        simp [isCloseEvent] at this
      · intro hmem
        rw [hrun] at hmem
        have := no_close_before_close_phase fh ish eh term β Event.closeLoop hmem
        simp [isCloseEvent] at this

/-- Claim C2 witness: the amended theorem at a concrete input with a clean
shutdown, evaluating that close() ran to completion after stop(). -/
theorem C2_run_stop_then_close_amended_witness :
    (sampleFh.run true true false Termination.systemExit noErr []
      noCancelErr).err = none ∧
    Event.closeLoop ∈
      (sampleFh.run true true false Termination.systemExit noErr []
        noCancelErr).trace := by
  have h := (C2_run_stop_then_close_amended sampleFh true false
    Termination.systemExit noErr [] noCancelErr (by simp [sampleFh])).2.2.2.1
    (by simp [FeedHandler.stop, sampleFh, sampleFeed, noErr, gatherErr])
  exact h

/-- Folding feed registrations over a constructor list appends exactly the
mapped feeds, in order, and touches nothing else in the handler state. -/
theorem foldl_appendFeedObj (g : Nat → Feed) :
    ∀ (cs : List Nat) (fh : FeedHandler),
      ((cs.foldl (fun acc c => acc.appendFeedObj (g c)) fh).feeds =
        fh.feeds ++ cs.map g) ∧
      ((cs.foldl (fun acc c => acc.appendFeedObj (g c)) fh).retries =
        fh.retries) := by
  intro cs
  induction cs with
  | nil => intro fh; simp
  | cons c rest ih =>
      intro fh
      simp only [List.foldl_cons, List.map_cons]
      have h := ih (fh.appendFeedObj (g c))
      refine ⟨?_, ?_⟩
      · rw [h.1]
        simp [FeedHandler.appendFeedObj, FeedHandler.add_feed]
      · rw [h.2]
        simp [FeedHandler.appendFeedObj, FeedHandler.add_feed]

/-- Claim C8 (confirmed): add_nbbo builds exactly one NBBO aggregator bound to
the given callback and symbols, and registers exactly one feed per feed
constructor, in order, each configured with the order-book channel as its only
channel, subscribed to exactly the given symbols, and with its order-book
callback wired to that single shared aggregator; nothing else in the handler
state changes. -/
theorem C8_add_nbbo_wiring (fh : FeedHandler) (ctors : List Nat)
    (symbols : List String) (callback : Nat) :
    (fh.add_nbbo ctors symbols callback).feeds =
      fh.feeds ++ ctors.map (fun c =>
        Feed.inst c [L2_BOOK] symbols
          [(L2_BOOK,
            Callback.nbbo { callback := callback, symbols := symbols })]) ∧
    (fh.add_nbbo ctors symbols callback).retries = fh.retries :=
  foldl_appendFeedObj _ ctors fh

/-- Claim C10 (confirmed, implicit): add_feed_running unpacks its kwargs
mapping positionally into add_feed (passing the keys as extra positional
arguments), so every call with at least one keyword argument fails with
TypeError and never configures the feed; only a call with no keyword
arguments registers the feed and starts it (the started feed being the last
registered one). -/
theorem C10_add_feed_running_kwargs (fh : FeedHandler) :
    (∀ (feed : FeedArg) (kwargs : Kwargs), kwargs ≠ [] →
      fh.add_feed_running feed kwargs =
        .error (.typeError "add_feed takes 2 positional arguments")) ∧
    (∀ f : Feed, fh.add_feed_running (.feedObj f) [] =
      .ok ({ fh with feeds := fh.feeds ++ [f] }, some f)) := by
  constructor
  · intro feed kwargs hk
    obtain ⟨kv, rest, rfl⟩ := List.exists_cons_of_ne_nil hk
    simp [FeedHandler.add_feed_running, FeedHandler.add_feed_positional]
  · intro f
    simp [FeedHandler.add_feed_running, FeedHandler.add_feed_positional,
      FeedHandler.add_feed, List.getLast?_concat]

/-- Claim C10 witness: one keyword argument makes the call fail with
TypeError, and no keyword arguments registers and starts the feed. -/
theorem C10_add_feed_running_kwargs_witness :
    FeedHandler.init.add_feed_running (.feedObj sampleFeed)
        [("symbols", "BTC-USD")] =
      .error (.typeError "add_feed takes 2 positional arguments") ∧
    FeedHandler.init.add_feed_running (.feedObj sampleFeed) [] =
      .ok ({ feeds := [sampleFeed], retries := none }, some sampleFeed) := by
  constructor
  · exact (C10_add_feed_running_kwargs FeedHandler.init).1 _ _ (by decide)
  · exact (C10_add_feed_running_kwargs FeedHandler.init).2 sampleFeed

/-- The ingested quote is always present after replacement. -/
theorem mem_replaceQuote_self (qs : List PSQ) (q : PSQ) :
    q ∈ replaceQuote qs q := by
  induction qs with
  | nil => simp [replaceQuote]
  | cons x xs ih =>
      simp only [replaceQuote]
      split_ifs with h
      · exact List.mem_cons_self _ _
      · exact List.mem_cons_of_mem _ ih

/-- Source A's quote for symbol X: bid 10.0 size 5, ask 11.0 size 2. -/
def qA : PSQ :=
  { symbol := "X", source := "A", bidPrice := 10, bidSize := 5,
    askPrice := 11, askSize := 2 }

/-- Source B's quote for symbol X: bid 10.5 size 3, ask 10.9 size 1. -/
def qB : PSQ :=
  { symbol := "X", source := "B", bidPrice := 10.5, bidSize := 3,
    askPrice := 10.9, askSize := 1 }

/-- Claim C9 (confirmed, modelled from the spec — cryptofeed/nbbo.py is not
under src/): after each ingest, the recomputed aggregate bid for the ingested
symbol is the per-source quote with maximum bid price among all sources
currently known for that symbol, ties broken by larger bid size then by
earliest source registration, and the aggregate ask is the minimum-ask
analogue; the per-source table is updated by in-place replacement; and in
particular, with source A reporting bid 10.0 size 5 / ask 11.0 and source B
reporting bid 10.5 size 3 / ask 10.9 for symbol X, after both ingests the
emitted aggregate for X is bid 10.5 from source B and ask 10.9 from source B. -/
theorem C9_nbbo_recompute :
    (∀ (st : NBBOState) (q : PSQ), ∃ b a,
      selectQuote improvesBid
        ((replaceQuote st.quotes q).filter (fun x => x.symbol = q.symbol)) =
        some b ∧
      selectQuote improvesAsk
        ((replaceQuote st.quotes q).filter (fun x => x.symbol = q.symbol)) =
        some a ∧
      IsBestOf improvesBid
        ((replaceQuote st.quotes q).filter (fun x => x.symbol = q.symbol)) b ∧
      IsBestOf improvesAsk
        ((replaceQuote st.quotes q).filter (fun x => x.symbol = q.symbol)) a ∧
      (∀ x ∈ (replaceQuote st.quotes q).filter
        (fun x => x.symbol = q.symbol), x.bidPrice ≤ b.bidPrice) ∧
      (∀ x ∈ (replaceQuote st.quotes q).filter
        (fun x => x.symbol = q.symbol), a.askPrice ≤ x.askPrice) ∧
      (st.ingest q).1.quotes = replaceQuote st.quotes q ∧
      ((st.ingest q).2 = none ∨
        (st.ingest q).2 = some { symbol := q.symbol, bid := b, ask := a })) ∧
    ((NBBOState.init.ingest qA).1.ingest qB).2 =
      some { symbol := "X", bid := qB, ask := qB } := by
  constructor
  · intro st q
    have hq : q ∈ replaceQuote st.quotes q := mem_replaceQuote_self st.quotes q
    have hqf : q ∈ (replaceQuote st.quotes q).filter
        (fun x => x.symbol = q.symbol) :=
      List.mem_filter.mpr ⟨hq, by simp⟩
    obtain ⟨q0, rest, hsplit⟩ :=
      List.exists_cons_of_ne_nil (List.ne_nil_of_mem hqf)
    obtain ⟨b, hb, hbestb⟩ := selectQuote_isBest improvesBid improvesBid_trans
      improvesBid_neg_trans q0 rest
    obtain ⟨a, ha, hbesta⟩ := selectQuote_isBest improvesAsk improvesAsk_trans
      improvesAsk_neg_trans q0 rest
    rw [← hsplit] at hb hbestb ha hbesta
    refine ⟨b, a, hb, ha, hbestb, hbesta,
      bestOf_bid_le _ b hbestb, bestOf_ask_ge _ a hbesta, ?_⟩
    have h78 : (st.ingest q).1.quotes = replaceQuote st.quotes q ∧
        ((st.ingest q).2 = none ∨
          (st.ingest q).2 = some { symbol := q.symbol, bid := b, ask := a }) := by
      simp only [NBBOState.ingest, hb, ha]
      split_ifs <;> simp
    exact ⟨h78.1, h78.2⟩
  · norm_num [NBBOState.ingest, NBBOState.init, replaceQuote, selectQuote,
      selGo, improvesBid, improvesAsk, lookupAgg, setAgg, qA, qB]

/-- Claim C9 witness: the concrete two-source conjunct, extracted from the
theorem itself. -/
theorem C9_nbbo_recompute_witness :
    ((NBBOState.init.ingest qA).1.ingest qB).2 =
      some { symbol := "X", bid := qB, ask := qB } :=
  C9_nbbo_recompute.2

end Cryptofeed
